import Mathlib

/-!
Verification development for the gpiper H.264 SEI metadata codec.

Bytes are modelled as natural numbers and byte strings as `List Nat`
(Python `bytes` values are sequences of integers in 0..255; none of the
operations below depend on the upper bound, so theorems are stated for
arbitrary naturals where possible).  Index-based Python loops over a
buffer are translated to structural recursion that consumes the buffer
from the front; loops whose index moves by a data-dependent amount take
an explicit fuel argument that is always instantiated with a bound
(buffer length plus one) that the loop can never exhaust, because every
iteration advances the index by at least one.
-/

namespace Gpiper

/-- Source: `_emulation_prevention` in `meta1/pyPad/inject_sei_sender.py`
(identical in `meta_test1_sei/pyPad/inject_sei_sender.py`).  `z` is the
`zeros` run counter. -/
def encodeAux : Nat → List Nat → List Nat
  | _, [] => []
  | z, b :: bs =>
    if 2 ≤ z ∧ b ≤ 3 then 3 :: b :: encodeAux (if b = 0 then 1 else 0) bs
    else b :: encodeAux (if b = 0 then z + 1 else 0) bs

/-- Top level `_emulation_prevention(data)`: the loop starts with `zeros = 0`. -/
def emulationPrevention (data : List Nat) : List Nat := encodeAux 0 data

/-- Source: `remove_epb` in `meta1/pyPad/extract_sei_receiver.py`, with
`z` the `zeros` counter. -/
def decodeAux : Nat → List Nat → List Nat
  | _, [] => []
  | z, b :: bs =>
    if 2 ≤ z ∧ b = 3 then decodeAux 0 bs
    else b :: decodeAux (if b = 0 then z + 1 else 0) bs

/-- Top level `remove_epb(rbsp)`: starts with `zeros = 0`. -/
def removeEpb (rbsp : List Nat) : List Nat := decodeAux 0 rbsp

/-- The `while size >= 255: emit 0xFF; size -= 255` loop of
`build_user_data_unregistered_sei`, followed by `bytes([size])`.
The first argument is fuel; with fuel `n` on input `n` the loop can
never exhaust it (each iteration removes 255 from the size and only one
from the fuel, and the fuel-0 case coincides with the final
`bytes([size])` step, which then can only see `size = 0`). -/
def sizeBytesGo : Nat → Nat → List Nat
  | 0, s => [s]
  | fuel + 1, s => if 255 ≤ s then 255 :: sizeBytesGo fuel (s - 255) else [s]

/-- Size coding of `build_user_data_unregistered_sei`
(`meta1/pyPad/inject_sei_sender.py` lines 24-28). -/
def sizeBytes (s : Nat) : List Nat := sizeBytesGo s s

/-- Source: `build_user_data_unregistered_sei(uuid_bytes, user_payload)`
in `meta1/pyPad/inject_sei_sender.py` (identical in
`meta_test1_sei/pyPad/inject_sei_sender.py`). -/
def buildUserDataSei (uuid_bytes user_payload : List Nat) : List Nat :=
  let body := uuid_bytes ++ user_payload
  let size_bytes := sizeBytes body.length
  let rbsp := 5 :: (size_bytes ++ body ++ [128])
  [0, 0, 0, 1] ++ [6] ++ emulationPrevention rbsp

/-- One `(0xFF)* final-byte` accumulation step of
`parse_sei_user_data_unregistered` in
`meta1/pyPad/extract_sei_receiver.py`: consume `0xFF` bytes adding 255
each, then consume the final byte; `none` when the buffer runs out
mid-read (the Python loop `break`s in that case). -/
def readVal : List Nat → Option (Nat × List Nat)
  | [] => none
  | b :: rest =>
    if b = 255 then (readVal rest).map (fun p => (p.1 + 255, p.2))
    else some (b, rest)

/-- The `while i < n` message loop of
`parse_sei_user_data_unregistered` (`meta1/pyPad/extract_sei_receiver.py`
lines 55-77), consuming the buffer from the front.  Each iteration
consumes at least two bytes, so fuel `length + 1` is never exhausted. -/
def parseSeiGo : Nat → List Nat → List (List Nat × List Nat)
  | 0, _ => []
  | fuel + 1, rem =>
    match readVal rem with
    | none => []
    | some (pt, r1) =>
      match readVal r1 with
      | none => []
      | some (ps, r2) =>
        let payload := r2.take ps
        let recs :=
          if pt = 5 ∧ 16 ≤ payload.length then [(payload.take 16, payload.drop 16)]
          else []
        recs ++ parseSeiGo fuel (r2.drop ps)

/-- Source `parse_sei_user_data_unregistered(rbsp)`: first `remove_epb`, then
the message loop; returns the `(uuid, body)` pairs. -/
def parseSeiUserData (rbsp : List Nat) : List (List Nat × List Nat) :=
  let d := removeEpb rbsp
  parseSeiGo (d.length + 1) d

/-- Python `data.find(b"\x00\x00\x01")` on a list: index of the first
occurrence of the three-byte pattern `00 00 01`, `none` if absent. -/
def find001 : List Nat → Option Nat
  | [] => none
  | b :: rest =>
    if b :: rest.take 2 = [0, 0, 1] then some 0
    else (find001 rest).map (· + 1)

/-- Python `data.find(b"\x00\x00\x01", pos)`: search starting at `pos`,
returning an absolute index. -/
def find001From (data : List Nat) (pos : Nat) : Option Nat :=
  (find001 (data.drop pos)).map (pos + ·)

/-- The start-code adjustment shared by `next_start` in
`find_nalus_annexb` and by `annexb_iter_nalus`: a three-byte start code
preceded by a zero byte is treated as a four-byte start code.  Returns
the start position and whether the code is four bytes long. -/
def adjustStart (data : List Nat) (j : Nat) : Nat × Bool :=
  if 0 < j ∧ data.getD (j - 1) 0 = 0 then (j - 1, true) else (j, false)

/-- The `while start != -1` loop of `find_nalus_annexb`
(`meta1/pyPad/extract_sei_receiver.py` lines 7-31).  Yields tuples
`(start, nal_type, payload_start, payload_end)`.  The start position
strictly increases on every iteration, so fuel `length + 1` is never
exhausted. -/
def nalusGo (data : List Nat) : Nat → Nat → Bool → List (Nat × Nat × Nat × Nat)
  | 0, _, _ => []
  | fuel + 1, start, sc4 =>
    let n := data.length
    let sc := if sc4 then 4 else 3
    let pos := start + sc
    if pos < n then
      let t := data.getD pos 0 % 32
      match find001From data pos with
      | none => [(start, t, pos + 1, n)]
      | some j =>
        let nxt := (adjustStart data j).1
        match find001From data nxt with
        | none => [(start, t, pos + 1, nxt)]
        | some j2 =>
          let a := adjustStart data j2
          (start, t, pos + 1, nxt) :: nalusGo data fuel a.1 a.2
    else []

/-- Source `find_nalus_annexb(data)`. -/
def findNalusAnnexb (data : List Nat) : List (Nat × Nat × Nat × Nat) :=
  match find001From data 0 with
  | none => []
  | some j =>
    let a := adjustStart data j
    nalusGo data (data.length + 1) a.1 a.2

/-- The extraction performed by `SeiExtractor.cb` in
`meta1/pyPad/extract_sei_receiver.py`: for every NAL of type 6 found by
`find_nalus_annexb`, parse its payload span
`data[payload_start:payload_end]` and collect the messages in order. -/
def seiExtractMeta1 (data : List Nat) : List (List Nat × List Nat) :=
  (findNalusAnnexb data).flatMap fun x =>
    if x.2.1 = 6 then parseSeiUserData ((data.take x.2.2.2).drop x.2.2.1) else []

/-- The `while True` loop of `annexb_iter_nalus`
(`meta_test1_sei/pyPad/inject_sei_sender.py` lines 37-56).  Yields
tuples `(start, end, startcode_len, nal_type)`.  `i` strictly increases
every iteration, so fuel `length + 1` is never exhausted. -/
def annexbGo (data : List Nat) : Nat → Nat → List (Nat × Nat × Nat × Nat)
  | 0, _ => []
  | fuel + 1, i =>
    match find001From data i with
    | none => []
    | some j0 =>
      let a := adjustStart data j0
      let j := a.1
      let scn := if a.2 then 4 else 3
      let k0 := find001From data (j + scn)
      let endv :=
        match k0 with
        | none => data.length
        | some k => if j + scn < k ∧ data.getD (k - 1) 0 = 0 then k - 1 else k
      let ys :=
        if j + scn < data.length then [(j, endv, scn, data.getD (j + scn) 0 % 32)]
        else []
      match k0 with
      | none => ys
      | some _ => ys ++ annexbGo data fuel endv

/-- Source `annexb_iter_nalus(data)`. -/
def annexbIterNalus (data : List Nat) : List (Nat × Nat × Nat × Nat) :=
  annexbGo data (data.length + 1) 0

/-- The `for`-loop body of `insertion_pos_for_sei`
(`meta_test1_sei/pyPad/inject_sei_sender.py` lines 58-71), with `acc`
the running `insert_at`. -/
def insertionPosGo : Nat → List (Nat × Nat × Nat × Nat) → Nat
  | acc, [] => acc
  | _, (s, e, _, t) :: rest =>
    if t = 9 ∨ t = 6 ∨ t = 7 ∨ t = 8 then insertionPosGo e rest
    else if t = 1 ∨ t = 5 then s
    else insertionPosGo e rest

/-- Source `insertion_pos_for_sei(au_bytes)`. -/
def insertionPosForSei (au_bytes : List Nat) : Nat :=
  insertionPosGo 0 (annexbIterNalus au_bytes)

/-- Python `int.from_bytes` of the first four bytes, big-endian. -/
def be4 (data : List Nat) : Nat :=
  (data.take 4).foldl (fun acc b => acc * 256 + b) 0

/-- The `(0xFF)* final-byte` accumulation of
`SEINALExtractor.find_and_extract_sei` in `2_mataTransfer/meta3/receiver.py`:
unlike `readVal`, exhaustion of the buffer mid-read does not abort; the
value accumulated so far is kept and the rest is empty. -/
def readVal3 : List Nat → Nat × List Nat
  | [] => (0, [])
  | b :: rest =>
    if b = 255 then
      let p := readVal3 rest
      (p.1 + 255, p.2)
    else (b, rest)

/-- The `rstrip` step on the bytes after the UUID: remove trailing bytes valued
0 or 0x80. -/
def rstrip0080 (l : List Nat) : List Nat :=
  (l.reverse.dropWhile (fun b => b == 0 || b == 128)).reverse

/-- The inner `while k < len(sei_data) - 1` message loop of
`find_and_extract_sei` (both framing branches contain a verbatim copy).
`jdec` abstracts UTF-8 `bytes.decode` followed by `json.loads`, the
two host-library calls guarded by the `try/except` that drops the
record on failure; `u` is the wanted UUID (`CUSTOM_UUID` in the
source).  Each iteration consumes at least one byte, so fuel
`length + 1` is never exhausted. -/
def parseSei3Go {M : Type} (jdec : List Nat → Option M) (u : List Nat) :
    Nat → List Nat → List M
  | 0, _ => []
  | fuel + 1, rem =>
    if rem.length < 2 then []
    else
      let p := readVal3 rem
      let q := readVal3 p.2
      if p.1 = 5 ∧ q.1 ≤ q.2.length then
        let payload := q.2.take q.1
        let recs :=
          if 16 ≤ payload.length ∧ payload.take 16 = u then
            match jdec (rstrip0080 (payload.drop 16)) with
            | some m => [m]
            | none => []
          else []
        recs ++ parseSei3Go jdec u fuel (q.2.drop q.1)
      else []

/-- The message loop on one SEI payload (`sei_data = nal_data[1:]`). -/
def parseSei3 {M : Type} (jdec : List Nat → Option M) (u sei : List Nat) : List M :=
  parseSei3Go jdec u (sei.length + 1) sei

/-- The `while i < len(data) - 4` record loop of the length-prefixed
branch of `find_and_extract_sei`, consuming the buffer from the front
(`rem = data[i:]`).  Each iteration consumes at least five bytes. -/
def lpGo {M : Type} (jdec : List Nat → Option M) (u : List Nat) :
    Nat → List Nat → List M
  | 0, _ => []
  | fuel + 1, rem =>
    if rem.length ≤ 4 then []
    else
      let nl := be4 rem
      if nl = 0 ∨ rem.length < 4 + nl then []
      else
        let nal := (rem.drop 4).take nl
        let recs :=
          if nal ≠ [] ∧ nal.headD 0 % 32 = 6 then parseSei3 jdec u (nal.drop 1)
          else []
        recs ++ lpGo jdec u fuel (rem.drop (4 + nl))

/-- The length-prefixed branch of `find_and_extract_sei`. -/
def lpParse {M : Type} (jdec : List Nat → Option M) (u data : List Nat) : List M :=
  lpGo jdec u (data.length + 1) data

/-- First index in `[lo, lo + fuel)` satisfying `p`
(a Python `for j in range(lo, hi)` loop with `break`, `fuel = hi - lo`). -/
def firstFrom (p : Nat → Bool) : Nat → Nat → Option Nat
  | 0, _ => none
  | fuel + 1, lo => if p lo then some lo else firstFrom p fuel (lo + 1)

/-- The `for j in range(i+5, min(i+500, len(data)-3))` end-of-NAL search
of the start-code branch of `find_and_extract_sei`; defaults to
`len(data)`. -/
def scFindEnd (data : List Nat) (i : Nat) : Nat :=
  let hi := min (i + 500) (data.length - 3)
  match firstFrom
      (fun j => (data.drop j).take 3 = [0, 0, 1] ∨ (data.drop j).take 4 = [0, 0, 0, 1])
      (hi - (i + 5)) (i + 5) with
  | some j => j
  | none => data.length

/-- The `while i < len(data) - 20` scan of the start-code branch of
`find_and_extract_sei`.  `i` strictly increases, so fuel `length + 1`
is never exhausted. -/
def scGo {M : Type} (jdec : List Nat → Option M) (u data : List Nat) :
    Nat → Nat → List M
  | 0, _ => []
  | fuel + 1, i =>
    if i < data.length - 20 then
      if (data.drop i).take 5 = [0, 0, 0, 1, 6] then
        let e := scFindEnd data i
        parseSei3 jdec u ((data.take e).drop (i + 5)) ++ scGo jdec u data fuel e
      else scGo jdec u data fuel (i + 1)
    else []

/-- The start-code (fallback) branch of `find_and_extract_sei`. -/
def scParse {M : Type} (jdec : List Nat → Option M) (u data : List Nat) : List M :=
  scGo jdec u data (data.length + 1) 0

/-- Constant `SEINALExtractor.CUSTOM_UUID`: the ASCII bytes of METADATA followed by eight zero bytes. -/
def CUSTOM_UUID : List Nat := [77, 69, 84, 65, 68, 65, 84, 65, 0, 0, 0, 0, 0, 0, 0, 0]

/-- Source `SEINALExtractor.find_and_extract_sei(data)`
(`2_mataTransfer/meta3/receiver.py` lines 22-146).  In the source the
length-prefixed branch `return`s from inside
`if len(data) > 4: ... if 0 < first_nal_length < len(data): ...`, and
the start-code scan runs in all other cases; that control flow is the
conditional below.  `u` generalizes the class constant `CUSTOM_UUID`
and `jdec` the UTF-8/JSON decoding (see `parseSei3Go`). -/
def findAndExtractSei {M : Type} (jdec : List Nat → Option M) (u data : List Nat) :
    List M :=
  if 4 < data.length ∧ 0 < be4 data ∧ be4 data < data.length then lpParse jdec u data
  else scParse jdec u data

/-- JSON values carried as metadata (the dynamically typed Python dict
values), as a tagged variant. -/
inductive JVal where
  | null : JVal
  | boolean : Bool → JVal
  | num : Int → JVal
  | str : String → JVal
  | arr : List JVal → JVal
  | obj : List (String × JVal) → JVal

/-- Python dict assignment `d[k] = v` on an association list: update in
place if the key exists, else append at the end. -/
def setKey : List (String × JVal) → String → JVal → List (String × JVal)
  | [], k, v => [(k, v)]
  | (k', v') :: rest, k, v =>
    if k' = k then (k, v) :: rest else (k', v') :: setKey rest k v

/-- State of `SeiInjector` (`meta_test1_sei/pyPad/inject_sei_sender.py`):
the configured UUID, the metadata dict, the every-N configuration
(`int(every_n)`, which may be negative), and the frame counter. -/
structure SeiInjector where
  uuid : List Nat
  meta : List (String × JVal)
  every_n : Int
  frame_idx : Nat

/-- Source `SeiInjector.cb` (`meta_test1_sei/pyPad/inject_sei_sender.py`
lines 89-117) on a mapped buffer: increments the frame counter, passes
non-qualifying frames through unchanged, and otherwise splices the
built SEI at the insertion point.  `dumps` abstracts
`json.dumps(..., separators=(",", ":")).encode("utf-8")`; `is_key` is
the host-provided keyframe flag.  Returns the updated injector state
and the forwarded buffer bytes. -/
def SeiInjector.cb (dumps : List (String × JVal) → List Nat)
    (s : SeiInjector) (is_key : Bool) (au : List Nat) : SeiInjector × List Nat :=
  let idx := s.frame_idx + 1
  if is_key = false ∧ (s.every_n ≤ 0 ∨ (idx : Int) % s.every_n ≠ 0) then
    (SeiInjector.mk s.uuid s.meta s.every_n idx, au)
  else
    let meta' := setKey s.meta "frame" (JVal.num idx)
    let payload := dumps meta'
    let sei := buildUserDataSei s.uuid payload
    let ins := insertionPosForSei au
    (SeiInjector.mk s.uuid meta' s.every_n idx, au.take ins ++ sei ++ au.drop ins)

/-- Size coding of `SEINALInjector.create_sei_nal_unit`
(`2_mataTransfer/meta3/sender.py` lines 23-45): a single byte when the
size is below 255, otherwise the same `0xFF` extension loop as
`sizeBytes`. -/
def sizeCoding3 (n : Nat) : List Nat :=
  if n < 255 then [n] else sizeBytesGo n n

/-- Source `SEINALInjector.create_sei_nal_unit(metadata_json)` with the JSON
text abstracted as its byte encoding.  No emulation prevention is
applied by this variant. -/
def createSeiNalUnit (json_bytes : List Nat) : List Nat :=
  let payload_size := 16 + json_bytes.length
  [0, 0, 0, 1, 6] ++ 5 :: (sizeCoding3 payload_size ++ CUSTOM_UUID ++ json_bytes ++ [128])

/-- The automaton invariant satisfied by emulation-prevention output:
starting from a zero-run count `z`, no byte valued at most 2 is ever
emitted right after two or more zeros. -/
def okFrom : Nat → List Nat → Prop
  | _, [] => True
  | z, b :: bs => ¬(2 ≤ z ∧ b ≤ 2) ∧ okFrom (if b = 0 then z + 1 else 0) bs

/-- UTF-8 bytes of the JSON text of the default metadata
object of the sender: a JSON object with the single key user bound to the
string demo, fifteen characters long. -/
def demoJson : List Nat :=
  [123, 34, 117, 115, 101, 114, 34, 58, 34, 100, 101, 109, 111, 34, 125]

/-- An access unit of four NAL units AUD(9), SPS(7), PPS(8), IDR(5),
each six bytes long with a four-byte start code. -/
def auHeaderIdr : List Nat :=
  [0, 0, 0, 1, 9, 240, 0, 0, 0, 1, 103, 66, 0, 0, 0, 1, 104, 206, 0, 0, 0, 1, 101, 136]

/-- An access unit consisting of a single IDR slice NAL. -/
def auSliceOnly : List Nat := [0, 0, 0, 1, 101, 136]

/-- An access unit of an AUD(9) NAL followed by a filler-data(12) NAL:
no VCL NAL, and the last NAL is not one of the recognized header
types. -/
def auHeaderFiller : List Nat := [0, 0, 0, 1, 9, 240, 0, 0, 0, 1, 12, 170]

/-- A length-prefixed buffer of two SEI NAL units: the first carries a
matching UUID with body `[255]`, the second a matching UUID with body
`[123, 125]` (the JSON text of the empty object). -/
def lpTwoSeiBuf : List Nat :=
  [0, 0, 0, 20] ++ 6 :: 5 :: 17 :: (CUSTOM_UUID ++ [255]) ++
    [0, 0, 0, 21] ++ 6 :: 5 :: 18 :: (CUSTOM_UUID ++ [123, 125])

/-- A length-prefixed buffer whose first SEI NAL has a malformed
message (payload type 7, not 5) followed by a second, well-formed SEI
NAL with body `[123, 125]`. -/
def lpMalformedThenGoodBuf : List Nat :=
  [0, 0, 0, 4] ++ [6, 7, 1, 0] ++
    [0, 0, 0, 21] ++ 6 :: 5 :: 18 :: (CUSTOM_UUID ++ [123, 125])

/-! ## Emulation-prevention lemmas -/

theorem encodeAux_cons (z b : Nat) (bs : List Nat) :
    encodeAux z (b :: bs) =
      if 2 ≤ z ∧ b ≤ 3 then 3 :: b :: encodeAux (if b = 0 then 1 else 0) bs
      else b :: encodeAux (if b = 0 then z + 1 else 0) bs := rfl

theorem decodeAux_cons (z b : Nat) (bs : List Nat) :
    decodeAux z (b :: bs) =
      if 2 ≤ z ∧ b = 3 then decodeAux 0 bs
      else b :: decodeAux (if b = 0 then z + 1 else 0) bs := rfl

theorem okFrom_cons (z b : Nat) (bs : List Nat) :
    okFrom z (b :: bs) ↔
      ¬(2 ≤ z ∧ b ≤ 2) ∧ okFrom (if b = 0 then z + 1 else 0) bs := Iff.rfl

theorem decodeAux_encodeAux (bs : List Nat) :
    ∀ z, z ≤ 2 → decodeAux z (encodeAux z bs) = bs := by
  induction bs with
  | nil => intro z _; rfl
  | cons b bs ih =>
    intro z hz
    by_cases hb : b = 0
    · subst hb
      rw [encodeAux_cons, if_pos rfl]
      by_cases h2 : 2 ≤ z
      · rw [if_pos ⟨h2, by omega⟩, decodeAux_cons, if_pos ⟨h2, rfl⟩,
          decodeAux_cons, if_neg (by omega), if_pos rfl, ih 1 (by omega)]
      · rw [if_neg (by omega), decodeAux_cons, if_neg (by omega), if_pos rfl,
          ih (z + 1) (by omega)]
    · rw [encodeAux_cons, if_neg hb]
      by_cases hc : 2 ≤ z ∧ b ≤ 3
      · rw [if_pos hc, decodeAux_cons, if_pos ⟨hc.1, rfl⟩, decodeAux_cons,
          if_neg (by omega), if_neg hb, ih 0 (by omega)]
      · rw [if_neg hc, decodeAux_cons, if_neg (by rintro ⟨h1, h2⟩; exact hc ⟨h1, by omega⟩),
          if_neg hb, ih 0 (by omega)]

theorem encodeAux_okFrom (bs : List Nat) : ∀ z, okFrom z (encodeAux z bs) := by
  induction bs with
  | nil => intro z; trivial
  | cons b bs ih =>
    intro z
    rw [encodeAux_cons]
    by_cases hc : 2 ≤ z ∧ b ≤ 3
    · rw [if_pos hc, okFrom_cons]
      refine ⟨by omega, ?_⟩
      rw [if_neg (by omega : ¬(3 : Nat) = 0), okFrom_cons]
      refine ⟨by omega, ?_⟩
      exact ih _
    · rw [if_neg hc, okFrom_cons]
      refine ⟨?_, ih _⟩
      rintro ⟨h1, h2⟩
      exact hc ⟨h1, by omega⟩

theorem okFrom_no_00b (s : List Nat) :
    ∀ z c bs, c ≤ 2 → ¬okFrom z (s ++ 0 :: 0 :: c :: bs) := by
  induction s with
  | nil =>
    intro z c bs hc h
    rw [List.nil_append, okFrom_cons, if_pos rfl] at h
    rw [okFrom_cons, if_pos rfl] at h
    have h3 := ((okFrom_cons _ _ _).mp h.2.2).1
    exact h3 ⟨by omega, hc⟩
  | cons a s ih =>
    intro z c bs hc h
    rw [List.cons_append, okFrom_cons] at h
    exact ih _ c bs hc h.2

theorem encode_no_00b (x : List Nat) (b : Nat) (s t : List Nat) (hb : b ≤ 2) :
    emulationPrevention x ≠ s ++ 0 :: 0 :: b :: t := by
  intro h
  have := encodeAux_okFrom x 0
  rw [show encodeAux 0 x = emulationPrevention x from rfl, h] at this
  exact okFrom_no_00b s 0 b t hb this

/-- Claim C2: for every byte sequence `x`, removing emulation-prevention
bytes from the emulation-prevention encoding of `x` yields `x` back:
`remove_epb(_emulation_prevention(x)) == x`. -/
theorem c2_emulation_prevention_round_trip (x : List Nat) :
    removeEpb (emulationPrevention x) = x :=
  decodeAux_encodeAux x 0 (by omega)

/-- Claim C9: the output of `_emulation_prevention` never contains a
three-byte run `00 00 b` with `b` at most 2, so no start-code prefix
`00 00 00` or `00 00 01` can appear inside an encoded RBSP. -/
theorem c9_no_start_code_in_encoded_rbsp (x : List Nat) (b : Nat) (s t : List Nat)
    (hb : b ≤ 2) : emulationPrevention x ≠ s ++ 0 :: 0 :: b :: t :=
  encode_no_00b x b s t hb

/-- Witness for C9 at a concrete input. -/
theorem c9_no_start_code_in_encoded_rbsp_witness :
    1 ≤ 2 ∧ emulationPrevention [0, 0, 1] ≠ [] ++ 0 :: 0 :: 1 :: [] :=
  ⟨by decide, c9_no_start_code_in_encoded_rbsp [0, 0, 1] 1 [] [] (by decide)⟩

/-! ## Size-coding lemmas -/

theorem sizeBytesGo_succ (f n : Nat) :
    sizeBytesGo (f + 1) n = if 255 ≤ n then 255 :: sizeBytesGo f (n - 255) else [n] := rfl

theorem readVal_cons (b : Nat) (rest : List Nat) :
    readVal (b :: rest) =
      if b = 255 then (readVal rest).map (fun p => (p.1 + 255, p.2))
      else some (b, rest) := rfl

theorem readVal_sizeBytesGo :
    ∀ fuel n rest, n ≤ fuel → readVal (sizeBytesGo fuel n ++ rest) = some (n, rest) := by
  intro fuel
  induction fuel with
  | zero =>
    intro n rest hn
    have h0 : n = 0 := by omega
    subst h0
    rw [show sizeBytesGo 0 0 = [0] from rfl, List.cons_append, List.nil_append,
      readVal_cons, if_neg (by omega)]
  | succ f ih =>
    intro n rest hn
    by_cases h : 255 ≤ n
    · rw [sizeBytesGo_succ, if_pos h, List.cons_append, readVal_cons, if_pos rfl,
        ih (n - 255) rest (by omega)]
      simp only [Option.map_some']
      rw [Nat.sub_add_cancel h]
    · rw [sizeBytesGo_succ, if_neg h, List.cons_append, List.nil_append,
        readVal_cons, if_neg (by omega)]

theorem readVal_sizeBytes (n : Nat) (rest : List Nat) :
    readVal (sizeBytes n ++ rest) = some (n, rest) :=
  readVal_sizeBytesGo n n rest le_rfl

/-- Claim C6: for SEI payload bodies of length exactly 254, 255, 256 and
510, the size coding of both builders
(`build_user_data_unregistered_sei` and
`SEINALInjector.create_sei_nal_unit`) emits 1, 2, 2 and 3 bytes
respectively. -/
theorem c6_size_coding_byte_counts :
    (sizeBytes 254).length = 1 ∧ (sizeBytes 255).length = 2 ∧
    (sizeBytes 256).length = 2 ∧ (sizeBytes 510).length = 3 ∧
    (sizeCoding3 254).length = 1 ∧ (sizeCoding3 255).length = 2 ∧
    (sizeCoding3 256).length = 2 ∧ (sizeCoding3 510).length = 3 := by decide

/-- Claim C7: for every 16-byte UUID and user payload, the output of the builder is exactly `00 00 00 01 06` followed by the emulation-prevention
encoding of the RBSP
`05 ++ size_bytes ++ uuid ++ user_payload ++ 80`, the transform being
applied to the whole RBSP. -/
theorem c7_builder_output_structure (u p : List Nat) (h : u.length = 16) :
    buildUserDataSei u p =
      [0, 0, 0, 1, 6] ++
        emulationPrevention ([5] ++ sizeBytes (u.length + p.length) ++ u ++ p ++ [128]) := by
  simp [buildUserDataSei, List.append_assoc]

/-- Witness for C7 at a concrete input. -/
theorem c7_builder_output_structure_witness :
    buildUserDataSei CUSTOM_UUID [123, 125] =
      [0, 0, 0, 1, 6] ++
        emulationPrevention
          ([5] ++ sizeBytes (CUSTOM_UUID.length + [123, 125].length) ++
            CUSTOM_UUID ++ [123, 125] ++ [128]) :=
  c7_builder_output_structure CUSTOM_UUID [123, 125] (by decide)

theorem find001_some_decomp (l : List Nat) :
    ∀ k, find001 l = some k → ∃ s t, l = s ++ 0 :: 0 :: 1 :: t := by
  induction l with
  | nil => intro k h; simp [find001] at h
  | cons a l ih =>
    intro k h
    simp only [find001] at h
    by_cases hc : a :: l.take 2 = [0, 0, 1]
    · refine ⟨[], l.drop 2, ?_⟩
      have ha : a = 0 := by
        have := congrArg (List.headD · 9) hc
        simpa using this
      have ht : l.take 2 = [0, 1] := by
        have := congrArg List.tail hc
        simpa using this
      have : l = 0 :: 1 :: l.drop 2 := by
        cases l with
        | nil => simp at ht
        | cons x l' =>
          cases l' with
          | nil => simp at ht
          | cons y l'' =>
            simp only [List.take, List.cons.injEq] at ht
            obtain ⟨hx, hy, -⟩ := ht
            simp [hx, hy]
      rw [ha, this]
      simp
    · rw [if_neg hc] at h
      match hf : find001 l with
      | none => rw [hf] at h; simp at h
      | some k' =>
        obtain ⟨s, t, hst⟩ := ih k' hf
        exact ⟨a :: s, t, by simp [hst]⟩

theorem find001_encode_none (rbsp : List Nat) (a : Nat) (ha : 3 < a) :
    find001 (a :: emulationPrevention rbsp) = none := by
  match hf : find001 (a :: emulationPrevention rbsp) with
  | none => rfl
  | some k =>
    obtain ⟨s, t, hst⟩ := find001_some_decomp _ k hf
    cases s with
    | nil =>
      simp only [List.nil_append, List.cons.injEq] at hst
      omega
    | cons x s' =>
      simp only [List.cons_append, List.cons.injEq] at hst
      exact absurd hst.2 (encode_no_00b rbsp 1 s' t (by omega))

/-! ## NAL scanning on builder output -/

theorem find001_cons (b : Nat) (rest : List Nat) :
    find001 (b :: rest) =
      if b :: rest.take 2 = [0, 0, 1] then some 0 else (find001 rest).map (· + 1) := rfl

theorem find001_build (E : List Nat) : find001 (0 :: 0 :: 0 :: 1 :: 6 :: E) = some 1 := by
  rw [find001_cons]
  rw [if_neg (by simp)]
  rw [find001_cons, if_pos (by simp)]
  rfl

theorem nalusGo_succ (data : List Nat) (f start : Nat) (sc4 : Bool) :
    nalusGo data (f + 1) start sc4 =
      (let n := data.length
       let sc := if sc4 then 4 else 3
       let pos := start + sc
       if pos < n then
         let t := data.getD pos 0 % 32
         match find001From data pos with
         | none => [(start, t, pos + 1, n)]
         | some j =>
           let nxt := (adjustStart data j).1
           match find001From data nxt with
           | none => [(start, t, pos + 1, nxt)]
           | some j2 =>
             let a := adjustStart data j2
             (start, t, pos + 1, nxt) :: nalusGo data f a.1 a.2
       else []) := rfl

theorem build_eq_cons (u j : List Nat) :
    buildUserDataSei u j =
      0 :: 0 :: 0 :: 1 :: 6 ::
        emulationPrevention (5 :: (sizeBytes (u ++ j).length ++ (u ++ j) ++ [128])) := rfl

theorem findNalus_build (u j : List Nat) :
    findNalusAnnexb (buildUserDataSei u j) =
      [(0, 6, 5, (buildUserDataSei u j).length)] := by
  rw [build_eq_cons]
  set E := emulationPrevention (5 :: (sizeBytes (u ++ j).length ++ (u ++ j) ++ [128]))
    with hE
  set data := 0 :: 0 :: 0 :: 1 :: 6 :: E with hdata
  have h001 : find001From data 0 = some 1 := by
    rw [find001From, List.drop_zero, hdata, find001_build]
    rfl
  have hadj : adjustStart data 1 = (0, true) := by
    rw [adjustStart, if_pos ⟨by omega, by rw [hdata]; rfl⟩]
  rw [findNalusAnnexb, h001]
  simp only [hadj]
  rw [nalusGo_succ]
  simp only []
  have hpos : 0 + (if true then 4 else 3) = 4 := by norm_num
  have hlen : (4 : Nat) < data.length := by rw [hdata]; simp
  have hgd : data.getD 4 0 % 32 = 6 := by rw [hdata]; rfl
  have hnone : find001From data 4 = none := by
    rw [find001From, hdata]
    have : (0 :: 0 :: 0 :: 1 :: 6 :: E).drop 4 = 6 :: E := rfl
    rw [this, hE, find001_encode_none _ 6 (by omega)]
    rfl
  rw [hpos] at *
  simp only [if_true]
  rw [if_pos hlen, hgd, hnone]

theorem parseSeiGo_succ (f : Nat) (rem : List Nat) :
    parseSeiGo (f + 1) rem =
      (match readVal rem with
       | none => []
       | some (pt, r1) =>
         match readVal r1 with
         | none => []
         | some (ps, r2) =>
           let payload := r2.take ps
           let recs :=
             if pt = 5 ∧ 16 ≤ payload.length then [(payload.take 16, payload.drop 16)]
             else []
           recs ++ parseSeiGo f (r2.drop ps)) := rfl

theorem parseSeiGo_stop_bit (f : Nat) : parseSeiGo f [128] = [] := by
  cases f with
  | zero => rfl
  | succ f =>
    rw [parseSeiGo_succ, readVal_cons, if_neg (by omega)]
    rfl

theorem parseSeiGo_succ_some (f : Nat) (rem : List Nat) (pt : Nat) (r1 : List Nat)
    (ps : Nat) (r2 : List Nat) (h1 : readVal rem = some (pt, r1))
    (h2 : readVal r1 = some (ps, r2)) :
    parseSeiGo (f + 1) rem =
      (if pt = 5 ∧ 16 ≤ (r2.take ps).length then
        [((r2.take ps).take 16, (r2.take ps).drop 16)]
       else []) ++ parseSeiGo f (r2.drop ps) := by
  rw [parseSeiGo_succ]
  simp only [h1, h2]

theorem parseSeiGo_rbsp (u j : List Nat) (h : u.length = 16) (f : Nat) :
    parseSeiGo (f + 1) (5 :: (sizeBytes (u ++ j).length ++ (u ++ j) ++ [128])) =
      [(u, j)] := by
  have h1 : readVal (5 :: (sizeBytes (u ++ j).length ++ (u ++ j) ++ [128])) =
      some (5, sizeBytes (u ++ j).length ++ ((u ++ j) ++ [128])) := by
    rw [readVal_cons, if_neg (by omega), List.append_assoc]
  have h2 : readVal (sizeBytes (u ++ j).length ++ ((u ++ j) ++ [128])) =
      some ((u ++ j).length, (u ++ j) ++ [128]) := readVal_sizeBytes _ _
  rw [parseSeiGo_succ_some f _ _ _ _ _ h1 h2]
  have htake : ((u ++ j) ++ [128]).take (u ++ j).length = u ++ j := List.take_left _ _
  have hdrop : ((u ++ j) ++ [128]).drop (u ++ j).length = [128] := List.drop_left _ _
  rw [htake, hdrop]
  rw [if_pos ⟨rfl, by rw [List.length_append, h]; omega⟩]
  rw [show (u ++ j).take 16 = u by rw [← h]; exact List.take_left _ _]
  rw [show (u ++ j).drop 16 = j by rw [← h]; exact List.drop_left _ _]
  rw [parseSeiGo_stop_bit]
  exact List.append_nil _

/-- The start-code extraction path applied to the output of the builder itself
recovers exactly the one injected record. -/
theorem seiExtractMeta1_build (u j : List Nat) (h : u.length = 16) :
    seiExtractMeta1 (buildUserDataSei u j) = [(u, j)] := by
  rw [seiExtractMeta1, findNalus_build]
  simp only [List.flatMap_cons, List.flatMap_nil, List.append_nil, if_pos rfl]
  rw [List.take_length]
  have hdrop : (buildUserDataSei u j).drop 5 =
      emulationPrevention (5 :: (sizeBytes (u ++ j).length ++ (u ++ j) ++ [128])) := by
    rw [build_eq_cons]; rfl
  rw [hdrop, parseSeiUserData]
  rw [show removeEpb (emulationPrevention (5 :: (sizeBytes (u ++ j).length ++ (u ++ j) ++ [128]))) =
      5 :: (sizeBytes (u ++ j).length ++ (u ++ j) ++ [128]) from
    decodeAux_encodeAux _ 0 (by omega)]
  exact parseSeiGo_rbsp u j h _

/-- Claim C1 (amended): for every 16-byte UUID `u` and payload `j` (in
the claim, the UTF-8 JSON encoding of the metadata object `m`),
extraction by the start-code SEI parser (`find_nalus_annexb` together
with `parse_sei_user_data_unregistered`) from the buffer built by
`build_user_data_unregistered_sei(u, j)` returns exactly the one
record `(u, j)`.  The heuristic extractor
`SEINALExtractor.find_and_extract_sei` instead returns the empty list
on every such buffer, because the four-byte Annex-B start code
`00 00 00 01` is read as a length prefix of value 1 (see the
counterexample). -/
theorem c1_build_extract_round_trip (u j : List Nat) (h : u.length = 16) :
    seiExtractMeta1 (buildUserDataSei u j) = [(u, j)] :=
  seiExtractMeta1_build u j h

/-- Witness for C1 at the UUID of the receiver and the default metadata
JSON text. -/
theorem c1_build_extract_round_trip_witness :
    CUSTOM_UUID.length = 16 ∧
      seiExtractMeta1 (buildUserDataSei CUSTOM_UUID demoJson) =
        [(CUSTOM_UUID, demoJson)] :=
  ⟨by decide, c1_build_extract_round_trip CUSTOM_UUID demoJson (by decide)⟩

/-- Counterexample for C1 as stated: running
`SEINALExtractor.find_and_extract_sei` (wanting `CUSTOM_UUID`, and with
the most permissive JSON decoder possible, namely the one that accepts
every byte string) on the buffer built from `CUSTOM_UUID` and the JSON
text of the object `m` with one key "user" returns the empty list, not
the one-element list the claim requires: the first four bytes
`00 00 00 01` decode to the big-endian value 1, which is strictly
between 0 and the buffer length, so the buffer is misclassified as
length-prefixed and no SEI payload is ever found. -/
theorem c1_counterexample :
    findAndExtractSei (fun b => some b) CUSTOM_UUID
        (buildUserDataSei CUSTOM_UUID demoJson) = [] ∧
      findAndExtractSei (fun b => some b) CUSTOM_UUID
        (buildUserDataSei CUSTOM_UUID demoJson) ≠ [demoJson] := by
  decide

/-! ## Insertion-point policy -/

theorem insertionPosGo_cons (acc s e sc t : Nat) (rest : List (Nat × Nat × Nat × Nat)) :
    insertionPosGo acc ((s, e, sc, t) :: rest) =
      if t = 9 ∨ t = 6 ∨ t = 7 ∨ t = 8 then insertionPosGo e rest
      else if t = 1 ∨ t = 5 then s
      else insertionPosGo e rest := rfl

theorem insertionPosGo_char (ns : List (Nat × Nat × Nat × Nat)) :
    ∀ acc : Nat,
      insertionPosGo acc ns =
        ((ns.find? (fun x => x.2.2.2 == 1 || x.2.2.2 == 5)).map (·.1)).getD
          (((ns.getLast?).map (fun x => x.2.1)).getD acc) := by
  induction ns with
  | nil => intro acc; rfl
  | cons hd rest ih =>
    intro acc
    obtain ⟨s, e, sc, t⟩ := hd
    by_cases hv : t = 1 ∨ t = 5
    · have hh : ¬(t = 9 ∨ t = 6 ∨ t = 7 ∨ t = 8) := by omega
      rw [insertionPosGo_cons, if_neg hh, if_pos hv]
      rw [List.find?_cons_of_pos _ (by rcases hv with h | h <;> simp [h])]
      rfl
    · have hpb : ((s, e, sc, t).2.2.2 == 1 || (s, e, sc, t).2.2.2 == 5) = false := by
        simp only [Bool.or_eq_false_iff, beq_eq_false_iff_ne, ne_eq]
        exact ⟨fun h1 => hv (Or.inl h1), fun h2 => hv (Or.inr h2)⟩
      have hl : insertionPosGo acc ((s, e, sc, t) :: rest) = insertionPosGo e rest := by
        rw [insertionPosGo_cons]
        by_cases hh : t = 9 ∨ t = 6 ∨ t = 7 ∨ t = 8
        · rw [if_pos hh]
        · rw [if_neg hh, if_neg hv]
      rw [hl, ih e]
      simp only [List.find?_cons, hpb]
      cases rest with
      | nil => simp
      | cons hd2 rest2 =>
        rw [List.getLast?_cons_cons]
        obtain ⟨x, hx⟩ : ∃ x, (hd2 :: rest2).getLast? = some x :=
          Option.isSome_iff_exists.mp (List.getLast?_isSome.mpr (by simp))
        rw [hx, Option.map_some', Option.getD_some, Option.getD_some]

/-- Claim C3 (amended): `insertion_pos_for_sei` walks the NAL units in
order and returns the start offset of the first VCL NAL (type 1 or 5);
every earlier NAL unit, whether a recognized header type AUD(9),
SEI(6), SPS(7), PPS(8) or any other non-VCL type, advances the
candidate offset to just after it.  If no VCL NAL exists it returns
the offset after the last NAL unit of any type (0 when the scan finds
no NAL units at all), and 0 when the AU begins directly with a slice.
On `[AUD, SPS, PPS, IDR]` it returns the offset immediately preceding
the IDR slice, and on `[slice]` it returns 0. -/
theorem c3_insertion_point_policy :
    (∀ au : List Nat,
      insertionPosForSei au =
        (((annexbIterNalus au).find? (fun x => x.2.2.2 == 1 || x.2.2.2 == 5)).map (·.1)).getD
          ((((annexbIterNalus au).getLast?).map (fun x => x.2.1)).getD 0)) ∧
    insertionPosForSei auHeaderIdr = 18 ∧
    insertionPosForSei auSliceOnly = 0 :=
  ⟨fun au => insertionPosGo_char _ 0, by decide, by decide⟩

/-- Counterexample for C3 as stated: on the access unit
`[AUD, filler-data(12)]`, which has no VCL NAL, the function returns
12, the offset after the unrecognized filler NAL, not 6, the offset
after the last recognized header NAL (the AUD) as the claim requires. -/
theorem c3_counterexample :
    insertionPosForSei auHeaderFiller = 12 ∧ insertionPosForSei auHeaderFiller ≠ 6 := by
  decide

/-! ## Framing heuristic and error handling of the meta3 extractor -/

/-- Claim C4: for every buffer longer than 4 bytes whose first 4 bytes,
read big-endian, form a value strictly between 0 and the buffer
length, `find_and_extract_sei` parses the buffer as a sequence of
`(4-byte length, payload)` records; otherwise it falls back to
start-code parsing. -/
theorem c4_framing_mode_heuristic {M : Type} (jdec : List Nat → Option M)
    (u data : List Nat) :
    (4 < data.length ∧ 0 < be4 data ∧ be4 data < data.length →
      findAndExtractSei jdec u data = lpParse jdec u data) ∧
    (¬(4 < data.length ∧ 0 < be4 data ∧ be4 data < data.length) →
      findAndExtractSei jdec u data = scParse jdec u data) :=
  ⟨fun h => by rw [findAndExtractSei, if_pos h],
   fun h => by rw [findAndExtractSei, if_neg h]⟩

/-- Witness for C4: the output of the builder starts with the four-byte
start code `00 00 00 01`, whose big-endian value 1 satisfies the
heuristic, so it is dispatched to the length-prefixed parser. -/
theorem c4_framing_mode_heuristic_witness :
    (4 < (buildUserDataSei CUSTOM_UUID demoJson).length ∧
      0 < be4 (buildUserDataSei CUSTOM_UUID demoJson) ∧
      be4 (buildUserDataSei CUSTOM_UUID demoJson) <
        (buildUserDataSei CUSTOM_UUID demoJson).length) ∧
    findAndExtractSei (fun b => some b) CUSTOM_UUID (buildUserDataSei CUSTOM_UUID demoJson) =
      lpParse (fun b => some b) CUSTOM_UUID (buildUserDataSei CUSTOM_UUID demoJson) :=
  ⟨by decide, (c4_framing_mode_heuristic (fun b => some b) CUSTOM_UUID _).1 (by decide)⟩

theorem readVal3_cons (b : Nat) (rest : List Nat) :
    readVal3 (b :: rest) =
      if b = 255 then ((readVal3 rest).1 + 255, (readVal3 rest).2) else (b, rest) := rfl

theorem parseSei3Go_succ {M : Type} (jdec : List Nat → Option M) (u : List Nat)
    (f : Nat) (rem : List Nat) :
    parseSei3Go jdec u (f + 1) rem =
      (if rem.length < 2 then []
       else
        if (readVal3 rem).1 = 5 ∧
            (readVal3 (readVal3 rem).2).1 ≤ (readVal3 (readVal3 rem).2).2.length then
          (if 16 ≤ ((readVal3 (readVal3 rem).2).2.take (readVal3 (readVal3 rem).2).1).length ∧
              ((readVal3 (readVal3 rem).2).2.take (readVal3 (readVal3 rem).2).1).take 16 = u then
            match jdec (rstrip0080
                (((readVal3 (readVal3 rem).2).2.take (readVal3 (readVal3 rem).2).1).drop 16)) with
            | some m => [m]
            | none => []
          else []) ++
            parseSei3Go jdec u f ((readVal3 (readVal3 rem).2).2.drop (readVal3 (readVal3 rem).2).1)
        else []) := rfl

theorem parseSei3Go_none {M : Type} (u : List Nat) :
    ∀ f rem, parseSei3Go (fun _ => (none : Option M)) u f rem = [] := by
  intro f
  induction f with
  | zero => intro rem; rfl
  | succ f ih =>
    intro rem
    rw [parseSei3Go_succ]
    by_cases h1 : rem.length < 2
    · rw [if_pos h1]
    · rw [if_neg h1]
      by_cases h2 : (readVal3 rem).1 = 5 ∧
          (readVal3 (readVal3 rem).2).1 ≤ (readVal3 (readVal3 rem).2).2.length
      · rw [if_pos h2]
        simp [ih]
      · rw [if_neg h2]

theorem parseSei3_none {M : Type} (u sei : List Nat) :
    parseSei3 (fun _ => (none : Option M)) u sei = [] :=
  parseSei3Go_none u _ _

theorem lpGo_succ {M : Type} (jdec : List Nat → Option M) (u : List Nat)
    (f : Nat) (rem : List Nat) :
    lpGo jdec u (f + 1) rem =
      (if rem.length ≤ 4 then []
       else
        if be4 rem = 0 ∨ rem.length < 4 + be4 rem then []
        else
          (if (rem.drop 4).take (be4 rem) ≠ [] ∧
              ((rem.drop 4).take (be4 rem)).headD 0 % 32 = 6 then
            parseSei3 jdec u (((rem.drop 4).take (be4 rem)).drop 1)
          else []) ++ lpGo jdec u f (rem.drop (4 + be4 rem))) := rfl

theorem lpGo_none {M : Type} (u : List Nat) :
    ∀ f rem, lpGo (fun _ => (none : Option M)) u f rem = [] := by
  intro f
  induction f with
  | zero => intro rem; rfl
  | succ f ih =>
    intro rem
    rw [lpGo_succ]
    by_cases h1 : rem.length ≤ 4
    · rw [if_pos h1]
    · rw [if_neg h1]
      by_cases h2 : be4 rem = 0 ∨ rem.length < 4 + be4 rem
      · rw [if_pos h2]
      · rw [if_neg h2]
        simp [ih, parseSei3_none]

theorem scGo_succ {M : Type} (jdec : List Nat → Option M) (u data : List Nat)
    (f i : Nat) :
    scGo jdec u data (f + 1) i =
      (if i < data.length - 20 then
        if (data.drop i).take 5 = [0, 0, 0, 1, 6] then
          parseSei3 jdec u ((data.take (scFindEnd data i)).drop (i + 5)) ++
            scGo jdec u data f (scFindEnd data i)
        else scGo jdec u data f (i + 1)
       else []) := rfl

theorem scGo_none {M : Type} (u data : List Nat) :
    ∀ f i, scGo (fun _ => (none : Option M)) u data f i = [] := by
  intro f
  induction f with
  | zero => intro i; rfl
  | succ f ih =>
    intro i
    rw [scGo_succ]
    by_cases h1 : i < data.length - 20
    · rw [if_pos h1]
      by_cases h2 : (data.drop i).take 5 = [0, 0, 0, 1, 6]
      · rw [if_pos h2, parseSei3_none, ih, List.nil_append]
      · rw [if_neg h2, ih]
    · rw [if_neg h1]

theorem findAndExtractSei_none {M : Type} (u data : List Nat) :
    findAndExtractSei (fun _ => (none : Option M)) u data = [] := by
  rw [findAndExtractSei]
  by_cases h : 4 < data.length ∧ 0 < be4 data ∧ be4 data < data.length
  · rw [if_pos h, lpParse, lpGo_none]
  · rw [if_neg h, scParse, scGo_none]

/-- Claim C5: the SEI extractor degrades gracefully on malformed input
(the embedding is a total function, so every input yields a list and
no exception path exists).  Concretely: a message whose payload type
coding is not 5 abandons the remaining messages of that NAL unit no
matter what follows; a decoder that fails on every UUID-matching
payload yields the empty list on every buffer (the failing record is
dropped, not propagated); and on a buffer containing a failing or
malformed SEI NAL followed by a well-formed one, exactly the record of
the well-formed NAL is returned, so only the bad record is lost. -/
theorem c5_malformed_input_is_skipped :
    (∀ (M : Type) (jdec : List Nat → Option M) (u : List Nat) (pt : Nat) (r : List Nat),
        pt ≠ 5 → pt ≠ 255 → parseSei3 jdec u (pt :: r) = []) ∧
    (∀ (M : Type) (u data : List Nat),
        findAndExtractSei (fun _ => (none : Option M)) u data = []) ∧
    findAndExtractSei (fun b => if b = [123, 125] then some b else none) CUSTOM_UUID
        lpTwoSeiBuf = [[123, 125]] ∧
    findAndExtractSei (fun b => some b) CUSTOM_UUID lpMalformedThenGoodBuf =
      [[123, 125]] := by
  refine ⟨?_, fun M u data => findAndExtractSei_none u data, by decide, by decide⟩
  intro M jdec u pt r h5 h255
  rw [parseSei3, parseSei3Go_succ]
  by_cases hr : (pt :: r).length < 2
  · rw [if_pos hr]
  · rw [if_neg hr]
    have hv3 : readVal3 (pt :: r) = (pt, r) := by rw [readVal3_cons, if_neg h255]
    have hcond : ¬((readVal3 (pt :: r)).1 = 5 ∧
        (readVal3 (readVal3 (pt :: r)).2).1 ≤ (readVal3 (readVal3 (pt :: r)).2).2.length) := by
      simp only [hv3]
      exact fun hc => h5 hc.1
    rw [if_neg hcond]

/-- Witness for C5: the universally quantified skip properties at
concrete inputs. -/
theorem c5_malformed_input_is_skipped_witness :
    parseSei3 (fun _ => some 0) CUSTOM_UUID (7 :: [1, 0]) = [] ∧
      findAndExtractSei (fun _ => (none : Option Nat)) CUSTOM_UUID [0, 0, 0, 1, 6] = [] :=
  ⟨c5_malformed_input_is_skipped.1 Nat (fun _ => some 0) CUSTOM_UUID 7 [1, 0]
      (by decide) (by decide),
   c5_malformed_input_is_skipped.2.1 Nat CUSTOM_UUID [0, 0, 0, 1, 6]⟩

/-! ## Injector callback -/

/-- Claim C8: with `is_keyframe = False` and the every-Nth-frame
configuration set to 0 (keyframe-only mode), the injector callback
returns the input buffer unchanged while only advancing the frame
counter: no SEI bytes are added and the metadata map is untouched. -/
theorem c8_non_keyframe_passthrough (dumps : List (String × JVal) → List Nat)
    (s : SeiInjector) (au : List Nat) (h : s.every_n = 0) :
    SeiInjector.cb dumps s false au =
      (SeiInjector.mk s.uuid s.meta s.every_n (s.frame_idx + 1), au) := by
  rw [SeiInjector.cb, if_pos ⟨rfl, Or.inl (by rw [h])⟩]

/-- Witness for C8 at a concrete injector state. -/
theorem c8_non_keyframe_passthrough_witness :
    SeiInjector.cb (fun _ => [])
        (SeiInjector.mk CUSTOM_UUID [("user", JVal.str "demo")] 0 0) false auSliceOnly =
      (SeiInjector.mk CUSTOM_UUID [("user", JVal.str "demo")] 0 1, auSliceOnly) :=
  c8_non_keyframe_passthrough (fun _ => [])
    (SeiInjector.mk CUSTOM_UUID [("user", JVal.str "demo")] 0 0) auSliceOnly rfl

theorem setKey_lookup_frame (m : List (String × JVal)) (v : JVal) :
    (setKey m "frame" v).lookup "frame" = some v := by
  induction m with
  | nil => simp [setKey, List.lookup]
  | cons hd rest ih =>
    obtain ⟨k', v'⟩ := hd
    by_cases hk : k' = "frame"
    · rw [setKey, if_pos hk]
      simp [List.lookup]
    · rw [setKey, if_neg hk]
      have hb : ("frame" == k') = false := beq_eq_false_iff_ne.mpr (fun he => hk he.symm)
      simp only [List.lookup, hb]
      exact ih

/-- Claim C10: on every invocation (with a mapped buffer) the frame
counter increments by exactly one, whether or not an SEI is injected;
and on every qualifying frame the emitted JSON payload is the
serialization of the configured metadata map with the key "frame"
bound to the current (just incremented) counter value, where binding
overwrites any caller-supplied "frame" entry (last conjunct). -/
theorem c10_frame_counter_and_payload (dumps : List (String × JVal) → List Nat)
    (s : SeiInjector) (is_key : Bool) (au : List Nat) :
    (SeiInjector.cb dumps s is_key au).1.frame_idx = s.frame_idx + 1 ∧
    (is_key = true ∨
        (0 < s.every_n ∧ ((s.frame_idx + 1 : Nat) : Int) % s.every_n = 0) →
      (SeiInjector.cb dumps s is_key au).2 =
        au.take (insertionPosForSei au) ++
          buildUserDataSei s.uuid
            (dumps (setKey s.meta "frame" (JVal.num ((s.frame_idx + 1 : Nat) : Int)))) ++
          au.drop (insertionPosForSei au)) ∧
    (∀ (m : List (String × JVal)) (v : JVal),
        (setKey m "frame" v).lookup "frame" = some v) := by
  refine ⟨?_, ?_, setKey_lookup_frame⟩
  · rw [SeiInjector.cb]
    by_cases hc : is_key = false ∧
        (s.every_n ≤ 0 ∨ ((s.frame_idx + 1 : Nat) : Int) % s.every_n ≠ 0)
    · rw [if_pos hc]
    · rw [if_neg hc]
  · intro hq
    have hc : ¬(is_key = false ∧
        (s.every_n ≤ 0 ∨ ((s.frame_idx + 1 : Nat) : Int) % s.every_n ≠ 0)) := by
      rcases hq with hk | ⟨hn, hm⟩
      · rintro ⟨hf, -⟩; rw [hk] at hf; cases hf
      · rintro ⟨-, ho | ho⟩
        · omega
        · exact ho hm
    rw [SeiInjector.cb, if_neg hc]

/-- Witness for C10 on a qualifying (keyframe) invocation. -/
theorem c10_frame_counter_and_payload_witness :
    (SeiInjector.cb (fun _ => [])
        (SeiInjector.mk CUSTOM_UUID [("user", JVal.str "demo")] 0 0) true auSliceOnly).1.frame_idx = 1 ∧
    (SeiInjector.cb (fun _ => [])
        (SeiInjector.mk CUSTOM_UUID [("user", JVal.str "demo")] 0 0) true auSliceOnly).2 =
      auSliceOnly.take (insertionPosForSei auSliceOnly) ++
        buildUserDataSei CUSTOM_UUID
          ((fun _ => []) (setKey [("user", JVal.str "demo")] "frame" (JVal.num 1))) ++
        auSliceOnly.drop (insertionPosForSei auSliceOnly) :=
  ⟨(c10_frame_counter_and_payload (fun _ => [])
      (SeiInjector.mk CUSTOM_UUID [("user", JVal.str "demo")] 0 0) true auSliceOnly).1,
   (c10_frame_counter_and_payload (fun _ => [])
      (SeiInjector.mk CUSTOM_UUID [("user", JVal.str "demo")] 0 0) true auSliceOnly).2.1
     (Or.inl rfl)⟩

end Gpiper
